import Mathlib

/-!
Verification of the static-site generator (generate.py) and the HTML
structural validator (.pre-commit-hooks/validate-html.py) of this
repository, as a shallow embedding in Lean 4.

Filesystem effects are modelled by an explicit filesystem value: a
predicate for directory existence and a partial map from paths to raw
file contents.  Fallible Python code (open of a missing file raises)
becomes Except.  The external pre-commit command is modelled by the
sequence of exit statuses its successive invocations would return.
-/

namespace MirpaaSite

/-- Filesystem as seen by generate.py: directory existence and file
contents keyed by path strings (None means the file does not exist). -/
structure FS where
  dirs : String → Bool
  files : String → Option String

/-- Errors raised by the content loader.  In the Python source a missing
file makes open raise FileNotFoundError; the specification names this
condition MissingResourceError, which is the name used here. -/
inductive LoadError where
  | MissingResourceError (path : String)
deriving DecidableEq, Repr

/-- Characters stripped by the Python str.strip default whitespace set
(ASCII subset; the inputs of this program are ASCII text fragments). -/
def pyIsSpace (c : Char) : Bool :=
  c = ' ' || c = '\t' || c = '\n' || c = '\r' || c = '\x0b' || c = '\x0c'

/-- Python str.strip on the character list: drop whitespace from the
front, then from the back (via reverse). -/
def pyStripList (l : List Char) : List Char :=
  ((l.dropWhile pyIsSpace).reverse.dropWhile pyIsSpace).reverse

/-- Python str.strip with the default whitespace set. -/
def pyStrip (s : String) : String :=
  ⟨pyStripList s.data⟩

/-- Embedding of read_text_file: open the file (error if absent) and
return its content stripped of leading and trailing whitespace. -/
def read_text_file (fs : FS) (filepath : String) : Except LoadError String :=
  match fs.files filepath with
  | some content => .ok (pyStrip content)
  | none => .error (.MissingResourceError filepath)

/-- A staff record, built from the four required per-member text files. -/
structure StaffMember where
  name : String
  title : String
  image : String
  bio : String
deriving DecidableEq, Repr

/-- Embedding of load_staff_member: read the four required files of one
member directory; any missing file propagates as an error, so no
partial record is ever produced. -/
def load_staff_member (fs : FS) (member_dir : String) : Except LoadError StaffMember :=
  match read_text_file fs (member_dir ++ "/name.txt") with
  | .error e => .error e
  | .ok name =>
    match read_text_file fs (member_dir ++ "/title.txt") with
    | .error e => .error e
    | .ok title =>
      match read_text_file fs (member_dir ++ "/image.txt") with
      | .error e => .error e
      | .ok image =>
        match read_text_file fs (member_dir ++ "/bio.txt") with
        | .error e => .error e
        | .ok bio => .ok { name := name, title := title, image := image, bio := bio }

/-- The fixed, hardcoded priority list of staff identifiers from
load_staff_members. -/
def staff_order : List String :=
  ["orly", "dafi", "nurse", "dietitian", "psychologist"]

/-- The loop body of load_staff_members over an explicit identifier
list: for each identifier whose subdirectory exists, load its record
and append it; identifiers without a subdirectory are skipped. -/
def loadMembersFrom (fs : FS) (templates_dir : String) :
    List String → Except LoadError (List StaffMember)
  | [] => .ok []
  | member_id :: rest =>
    if fs.dirs (templates_dir ++ "/" ++ member_id) then
      match load_staff_member fs (templates_dir ++ "/" ++ member_id) with
      | .error e => .error e
      | .ok m =>
        match loadMembersFrom fs templates_dir rest with
        | .error e => .error e
        | .ok ms => .ok (m :: ms)
    else
      loadMembersFrom fs templates_dir rest

/-- Embedding of load_staff_members: iterate the fixed priority list. -/
def load_staff_members (fs : FS) (templates_dir : String) :
    Except LoadError (List StaffMember) :=
  loadMembersFrom fs templates_dir staff_order

/-- Loading all records of a given identifier list unconditionally (the
shape load_staff_members takes after the existence filter is applied). -/
def loadAllListed (fs : FS) (templates_dir : String) :
    List String → Except LoadError (List StaffMember)
  | [] => .ok []
  | member_id :: rest =>
    match load_staff_member fs (templates_dir ++ "/" ++ member_id) with
    | .error e => .error e
    | .ok m =>
      match loadAllListed fs templates_dir rest with
      | .error e => .error e
      | .ok ms => .ok (m :: ms)

/-- Outcome of the bounded retry loop: normal return, or the fatal
click.Abort raised after the final failing attempt. -/
inductive RetryOutcome where
  | ok
  | abort
deriving DecidableEq, Repr

/-- Loop body of run_precommit_with_retries.  done counts invocations
made so far; remaining counts loop iterations left; results gives the
exit status of the i-th invocation (true = exit code 0).  A successful
attempt breaks out at once; a failing attempt retries while the current
attempt is not the last (remaining is greater than one), and otherwise
raises the fatal abort.  The returned Nat is the total number of
invocations of the external command. -/
def retryLoop (results : Nat → Bool) : Nat → Nat → Nat × RetryOutcome
  | done, 0 => (done, .ok)
  | done, remaining + 1 =>
    if results done then (done + 1, .ok)
    else if remaining > 0 then retryLoop results (done + 1) remaining
    else (done + 1, .abort)

/-- Embedding of run_precommit_with_retries: the Python loop ranges over
range(1, max_attempts + 1), which has max(0, max_attempts) iterations
(max_attempts is a Python int, so it may be negative). -/
def run_precommit_with_retries (results : Nat → Bool) (max_attempts : Int) :
    Nat × RetryOutcome :=
  retryLoop results 0 max_attempts.toNat

lemma retryLoop_count_le (results : Nat → Bool) :
    ∀ remaining done, (retryLoop results done remaining).1 ≤ done + remaining := by
  intro remaining
  induction remaining with
  | zero => intro done; simp [retryLoop]
  | succ r ih =>
    intro done
    simp only [retryLoop]
    split
    · simp
    · split
      · have := ih (done + 1)
        omega
      · simp

lemma retryLoop_first_success (results : Nat → Bool) :
    ∀ remaining done, results done = true →
      retryLoop results done (remaining + 1) = (done + 1, .ok) := by
  intro remaining done h
  simp [retryLoop, h]

/-- C1: run_precommit_with_retries invokes the external command at most
max_attempts times; with an immediate success on any attempt it stops
at once; with failures on attempts 1 and 2 and success on attempt 3 it
returns normally after exactly 3 invocations; with failures on all 3
attempts it raises the fatal abort after exactly 3 invocations. -/
theorem retries_bounded_and_exact (results : Nat → Bool) :
    (∀ max_attempts : Int,
      (run_precommit_with_retries results max_attempts).1 ≤ max_attempts.toNat) ∧
    (results 0 = false → results 1 = false → results 2 = true →
      run_precommit_with_retries results 3 = (3, .ok)) ∧
    (results 0 = false → results 1 = false → results 2 = false →
      run_precommit_with_retries results 3 = (3, .abort)) ∧
    (results 0 = true →
      run_precommit_with_retries results 3 = (1, .ok)) := by
  refine ⟨?_, ?_, ?_, ?_⟩
  · intro m
    have := retryLoop_count_le results m.toNat 0
    simpa [run_precommit_with_retries] using this
  · intro h0 h1 h2
    simp [run_precommit_with_retries, retryLoop, h0, h1, h2]
  · intro h0 h1 h2
    simp [run_precommit_with_retries, retryLoop, h0, h1, h2]
  · intro h0
    simp [run_precommit_with_retries, retryLoop, h0]

/-- Witness for C1: the fail-fail-succeed schedule makes exactly 3
invocations and returns normally. -/
theorem retries_bounded_and_exact_witness :
    run_precommit_with_retries (fun i => decide (i = 2)) 3 = (3, .ok) :=
  (retries_bounded_and_exact (fun i => decide (i = 2))).2.1
    (by decide) (by decide) (by decide)

/-- C9: called with max_attempts at most 0, the loop body never runs:
zero invocations of the external command, and the function returns
normally without raising the abort. -/
theorem retries_nonpositive_attempts (results : Nat → Bool) (max_attempts : Int)
    (h : max_attempts ≤ 0) :
    run_precommit_with_retries results max_attempts = (0, .ok) := by
  have hz : max_attempts.toNat = 0 := Int.toNat_of_nonpos h
  simp [run_precommit_with_retries, hz, retryLoop]

/-- Witness for C9: max_attempts = -1 gives zero invocations and a
normal return. -/
theorem retries_nonpositive_attempts_witness :
    run_precommit_with_retries (fun _ => false) (-1) = (0, .ok) :=
  retries_nonpositive_attempts (fun _ => false) (-1) (by decide)

/-- A staff subdirectory that exists is missing at least one of its four
required files. -/
def memberFilesMissing (fs : FS) (member_dir : String) : Prop :=
  fs.files (member_dir ++ "/name.txt") = none ∨
  fs.files (member_dir ++ "/title.txt") = none ∨
  fs.files (member_dir ++ "/image.txt") = none ∨
  fs.files (member_dir ++ "/bio.txt") = none

/-- The loading phase of main: read the required welcome.txt, then load
the staff roster; the first error aborts the run. -/
def load_inputs (fs : FS) (templates_dir : String) :
    Except LoadError (String × List StaffMember) :=
  match read_text_file fs (templates_dir ++ "/welcome.txt") with
  | .error e => .error e
  | .ok welcome_text =>
    match load_staff_members fs templates_dir with
    | .error e => .error e
    | .ok staff_members => .ok (welcome_text, staff_members)

lemma loadMembersFrom_eq_filter (fs : FS) (dir : String) :
    ∀ L : List String,
      loadMembersFrom fs dir L
        = loadAllListed fs dir (L.filter fun i => fs.dirs (dir ++ "/" ++ i)) := by
  intro L
  induction L with
  | nil => rfl
  | cons i rest ih =>
    by_cases h : fs.dirs (dir ++ "/" ++ i) = true
    · simp only [loadMembersFrom, List.filter_cons, h, if_true]
      rw [ih]
      rfl
    · rw [Bool.not_eq_true] at h
      simp only [loadMembersFrom, List.filter_cons, h]
      rw [ih]
      rfl

lemma loadAllListed_ok_length (fs : FS) (dir : String) :
    ∀ (L : List String) (ms : List StaffMember),
      loadAllListed fs dir L = .ok ms → ms.length = L.length := by
  intro L
  induction L with
  | nil =>
    intro ms h
    simp only [loadAllListed] at h
    cases h
    rfl
  | cons i rest ih =>
    intro ms h
    simp only [loadAllListed] at h
    cases hm : load_staff_member fs (dir ++ "/" ++ i) with
    | error e => rw [hm] at h; cases h
    | ok m =>
      rw [hm] at h
      cases hr : loadAllListed fs dir rest with
      | error e => rw [hr] at h; cases h
      | ok ms' =>
        rw [hr] at h
        cases h
        simp [ih ms' hr]

lemma load_staff_member_error_iff (fs : FS) (d : String) :
    (∃ e, load_staff_member fs d = .error e) ↔ memberFilesMissing fs d := by
  unfold load_staff_member memberFilesMissing read_text_file
  cases h1 : fs.files (d ++ "/name.txt") <;>
    cases h2 : fs.files (d ++ "/title.txt") <;>
      cases h3 : fs.files (d ++ "/image.txt") <;>
        cases h4 : fs.files (d ++ "/bio.txt") <;>
          simp

lemma loadMembersFrom_error_iff (fs : FS) (dir : String) :
    ∀ L : List String,
      (∃ e, loadMembersFrom fs dir L = .error e) ↔
        ∃ i ∈ L, fs.dirs (dir ++ "/" ++ i) = true ∧
          memberFilesMissing fs (dir ++ "/" ++ i) := by
  intro L
  induction L with
  | nil => simp [loadMembersFrom]
  | cons i rest ih =>
    simp only [loadMembersFrom]
    by_cases h : fs.dirs (dir ++ "/" ++ i) = true
    · simp only [h, if_true]
      cases hm : load_staff_member fs (dir ++ "/" ++ i) with
      | error e =>
        have hmiss : memberFilesMissing fs (dir ++ "/" ++ i) :=
          (load_staff_member_error_iff fs _).mp ⟨e, hm⟩
        exact iff_of_true ⟨e, rfl⟩ ⟨i, by simp, h, hmiss⟩
      | ok m =>
        have hnomiss : ¬ memberFilesMissing fs (dir ++ "/" ++ i) := by
          intro hmiss
          rcases (load_staff_member_error_iff fs _).mpr hmiss with ⟨e, he⟩
          rw [hm] at he
          cases he
        cases hr : loadMembersFrom fs dir rest with
        | error e =>
          refine iff_of_true ⟨e, rfl⟩ ?_
          rcases ih.mp ⟨e, hr⟩ with ⟨j, hj, hdj, hmj⟩
          exact ⟨j, by simp [hj], hdj, hmj⟩
        | ok ms =>
          refine iff_of_false ?_ ?_
          · rintro ⟨e, he⟩
            cases he
          · rintro ⟨j, hj, hdj, hmj⟩
            rcases List.mem_cons.mp hj with rfl | hj'
            · exact hnomiss hmj
            · rcases ih.mpr ⟨j, hj', hdj, hmj⟩ with ⟨e, he⟩
              rw [hr] at he
              cases he
    · rw [Bool.not_eq_true] at h
      simp only [h, Bool.false_eq_true, if_false]
      rw [ih]
      constructor
      · rintro ⟨j, hj, hdj, hmj⟩
        exact ⟨j, List.mem_cons_of_mem _ hj, hdj, hmj⟩
      · rintro ⟨j, hj, hdj, hmj⟩
        rcases List.mem_cons.mp hj with rfl | hj'
        · rw [h] at hdj
          cases hdj
        · exact ⟨j, hj', hdj, hmj⟩

lemma loadAllListed_ok_of_forall (fs : FS) (dir : String) :
    ∀ L : List String,
      (∀ i ∈ L, ¬ memberFilesMissing fs (dir ++ "/" ++ i)) →
      ∃ ms, loadAllListed fs dir L = .ok ms ∧ ms.length = L.length := by
  intro L
  induction L with
  | nil => intro _; exact ⟨[], rfl, rfl⟩
  | cons i rest ih =>
    intro hall
    have hnomiss : ¬ memberFilesMissing fs (dir ++ "/" ++ i) :=
      hall i (by simp)
    have hm : ∃ m, load_staff_member fs (dir ++ "/" ++ i) = .ok m := by
      cases hm : load_staff_member fs (dir ++ "/" ++ i) with
      | error e =>
        exact absurd ((load_staff_member_error_iff fs _).mp ⟨e, hm⟩) hnomiss
      | ok m => exact ⟨m, rfl⟩
    rcases hm with ⟨m, hm⟩
    rcases ih (fun j hj => hall j (List.mem_cons_of_mem _ hj)) with ⟨ms, hms, hlen⟩
    refine ⟨m :: ms, ?_, by simp [hlen]⟩
    simp only [loadAllListed, hm, hms]

/-- C2: the roster is the fixed priority list filtered by subdirectory
existence: it is always a sublist of the priority list (never reordered),
has no duplicated identifiers, has at most 5 entries, and when all five
staff subdirectories exist fully populated it has exactly 5 entries.
Filesystem listing order does not appear anywhere in the computation. -/
theorem roster_priority_ordered (fs : FS) (root : String) :
    load_staff_members fs root
        = loadAllListed fs root
            (staff_order.filter fun i => fs.dirs (root ++ "/" ++ i))
    ∧ (staff_order.filter fun i => fs.dirs (root ++ "/" ++ i)).Sublist staff_order
    ∧ (staff_order.filter fun i => fs.dirs (root ++ "/" ++ i)).Nodup
    ∧ (∀ roster, load_staff_members fs root = .ok roster →
        roster.length
            = (staff_order.filter fun i => fs.dirs (root ++ "/" ++ i)).length
          ∧ roster.length ≤ 5)
    ∧ ((∀ i ∈ staff_order, fs.dirs (root ++ "/" ++ i) = true ∧
          ¬ memberFilesMissing fs (root ++ "/" ++ i)) →
        ∃ roster, load_staff_members fs root = .ok roster ∧ roster.length = 5) := by
  have hfe := loadMembersFrom_eq_filter fs root staff_order
  refine ⟨hfe, List.filter_sublist _,
    (by decide : staff_order.Nodup).filter _, ?_, ?_⟩
  · intro roster h
    rw [load_staff_members, hfe] at h
    have hlen := loadAllListed_ok_length fs root _ roster h
    refine ⟨hlen, ?_⟩
    rw [hlen]
    have := (List.filter_sublist (l := staff_order)
      (p := fun i => fs.dirs (root ++ "/" ++ i))).length_le
    simpa [staff_order] using this
  · intro hall
    have hfilter :
        staff_order.filter (fun i => fs.dirs (root ++ "/" ++ i)) = staff_order :=
      List.filter_eq_self.mpr fun i hi => (hall i hi).1
    rcases loadAllListed_ok_of_forall fs root staff_order
        (fun i hi => (hall i hi).2) with ⟨ms, hms, hlen⟩
    refine ⟨ms, ?_, by simpa [staff_order] using hlen⟩
    rw [load_staff_members, hfe, hfilter]
    exact hms

/-- A filesystem in which every directory and every file exists. -/
def fsAll : FS :=
  ⟨fun _ => true, fun _ => some "x"⟩

/-- Witness for C2: with all five subdirectories present and populated,
the roster has exactly five entries. -/
theorem roster_priority_ordered_witness :
    ∃ roster, load_staff_members fsAll "templates" = .ok roster ∧
      roster.length = 5 :=
  (roster_priority_ordered fsAll "templates").2.2.2.2
    (fun i _ => ⟨rfl, by simp [memberFilesMissing, fsAll]⟩)

/-- C4: the loading phase fails exactly when the required welcome.txt is
absent or some existing staff subdirectory is missing one of its four
required files; every loader failure is a MissingResourceError; and on
success every existing staff subdirectory was fully populated, so no
partial staff record is ever produced. -/
theorem loader_missing_resource (fs : FS) (root : String) :
    ((∃ e, load_inputs fs root = .error e) ↔
        fs.files (root ++ "/welcome.txt") = none ∨
          ∃ i ∈ staff_order, fs.dirs (root ++ "/" ++ i) = true ∧
            memberFilesMissing fs (root ++ "/" ++ i))
    ∧ (∀ e, load_inputs fs root = .error e →
        ∃ p, e = .MissingResourceError p)
    ∧ (∀ w staff, load_inputs fs root = .ok (w, staff) →
        ∀ i ∈ staff_order, fs.dirs (root ++ "/" ++ i) = true →
          ¬ memberFilesMissing fs (root ++ "/" ++ i)) := by
  refine ⟨?_, ?_, ?_⟩
  · cases hw : fs.files (root ++ "/welcome.txt") with
    | none =>
      refine iff_of_true ?_ (Or.inl rfl)
      exact ⟨.MissingResourceError (root ++ "/welcome.txt"),
        by simp [load_inputs, read_text_file, hw]⟩
    | some c =>
      cases hs : load_staff_members fs root with
      | error e =>
        refine iff_of_true ⟨e, by simp [load_inputs, read_text_file, hw, hs]⟩ ?_
        exact Or.inr ((loadMembersFrom_error_iff fs root staff_order).mp ⟨e, hs⟩)
      | ok ms =>
        refine iff_of_false ?_ ?_
        · rintro ⟨e, he⟩
          simp [load_inputs, read_text_file, hw, hs] at he
        · rintro (h | hmem)
          · exact Option.noConfusion h
          · rcases (loadMembersFrom_error_iff fs root staff_order).mpr hmem
              with ⟨e, he⟩
            rw [load_staff_members] at hs
            rw [hs] at he
            cases he
  · intro e _
    cases e with
    | MissingResourceError p => exact ⟨p, rfl⟩
  · intro w staff h i hi hdir hmiss
    rcases (loadMembersFrom_error_iff fs root staff_order).mpr
      ⟨i, hi, hdir, hmiss⟩ with ⟨e, he⟩
    cases hw : fs.files (root ++ "/welcome.txt") with
    | none => simp [load_inputs, read_text_file, hw] at h
    | some c => simp [load_inputs, read_text_file, hw, load_staff_members, he] at h

/-- A filesystem whose only staff subdirectory is present but misses its
bio.txt, while welcome.txt and the other three member files exist. -/
def bioMissingFS : FS where
  dirs := fun d => d == "templates/orly"
  files := fun p =>
    if p == "templates/welcome.txt" then some "Welcome"
    else if p == "templates/orly/name.txt" then some "Orly"
    else if p == "templates/orly/title.txt" then some "Doctor"
    else if p == "templates/orly/image.txt" then some "orly.jpg"
    else none

/-- Witness for C4: a present subdirectory missing bio.txt makes the
loading phase fail. -/
theorem loader_missing_resource_witness :
    ∃ e, load_inputs bioMissingFS "templates" = .error e :=
  (loader_missing_resource bioMissingFS "templates").1.mpr
    (Or.inr ⟨"orly", by decide, by decide,
      Or.inr (Or.inr (Or.inr (by decide)))⟩)

lemma isSuffix_getLast_eq {α : Type} {x y : List α} (h : x <:+ y)
    (hx : x ≠ []) : x.getLast? = y.getLast? := by
  rw [List.getLast?_eq_getLast x hx, List.getLast?_eq_getLast y (h.ne_nil hx)]
  exact congrArg some (h.getLast hx)

lemma pyStrip_head_not_space (c : String) (x : Char) :
    (pyStrip c).data.head? = some x → pyIsSpace x = false := by
  intro h
  have hd : (pyStrip c).data
      = ((c.data.dropWhile pyIsSpace).reverse.dropWhile pyIsSpace).reverse := rfl
  rw [hd, List.head?_reverse] at h
  have hB : (c.data.dropWhile pyIsSpace).reverse.dropWhile pyIsSpace ≠ [] := by
    intro hB
    rw [hB] at h
    cases h
  have h2 := isSuffix_getLast_eq (List.dropWhile_suffix pyIsSpace) hB
  rw [h2, List.getLast?_reverse] at h
  have h3 := List.head?_dropWhile_not pyIsSpace c.data
  rw [h] at h3
  exact h3

lemma pyStrip_getLast_not_space (c : String) (x : Char) :
    (pyStrip c).data.getLast? = some x → pyIsSpace x = false := by
  intro h
  have hd : (pyStrip c).data
      = ((c.data.dropWhile pyIsSpace).reverse.dropWhile pyIsSpace).reverse := rfl
  rw [hd, List.getLast?_reverse] at h
  have h3 := List.head?_dropWhile_not pyIsSpace (c.data.dropWhile pyIsSpace).reverse
  rw [h] at h3
  exact h3

/-- C8: every text value the loader reads is the raw file content
stripped of leading and trailing whitespace; stripping a name.txt
containing two leading spaces and a trailing newline around the words
Dr. Example yields exactly those words; and a stripped value never
begins or ends with a whitespace character. -/
theorem loader_strips_text :
    (∀ (fs : FS) (p c : String), fs.files p = some c →
        read_text_file fs p = .ok (pyStrip c))
    ∧ pyStrip "  Dr. Example\n" = "Dr. Example"
    ∧ (∀ c x, (pyStrip c).data.head? = some x → pyIsSpace x = false)
    ∧ (∀ c x, (pyStrip c).data.getLast? = some x → pyIsSpace x = false) := by
  refine ⟨?_, by decide, pyStrip_head_not_space, pyStrip_getLast_not_space⟩
  intro fs p c h
  simp [read_text_file, h]

/-- A filesystem whose every file holds a name with surrounding
whitespace, for exercising the stripping behaviour. -/
def stripDemoFS : FS :=
  ⟨fun _ => true, fun _ => some "  Dr. Example\n"⟩

/-- Witness for C8: reading a file containing whitespace-padded text
returns the stripped value. -/
theorem loader_strips_text_witness :
    read_text_file stripDemoFS "templates/orly/name.txt"
      = .ok (pyStrip "  Dr. Example\n") :=
  loader_strips_text.1 stripDemoFS "templates/orly/name.txt"
    "  Dr. Example\n" rfl

/-- The fixed set of self-closing void elements that handle_starttag
never pushes. -/
def void_elements : List String :=
  ["img", "br", "hr", "input", "meta", "link", "area", "base", "col",
   "embed", "param", "source", "track", "wbr"]

/-- State of the HTMLValidator: accumulated diagnostics and the stack of
open tag names.  The Python list is used with append at the end and
stack[-1] / pop() at the end, modelled here the same way (the last list
element is the stack top). -/
structure VState where
  errors : List String
  stack : List String
deriving DecidableEq, Repr

/-- Freshly constructed HTMLValidator: no errors, empty stack. -/
def initValidator : VState :=
  ⟨[], []⟩

/-- Diagnostic recorded on a closing tag seen with an empty stack. -/
def unexpectedClosingMsg (tag : String) : String :=
  "Unexpected closing tag: </" ++ tag ++ ">"

/-- Diagnostic recorded when the stack top differs from a closing tag. -/
def mismatchedMsg (top tag : String) : String :=
  "Mismatched tags: expected </" ++ top ++ ">, got </" ++ tag ++ ">"

/-- Diagnostic recorded at end of input for a non-empty stack. -/
def unclosedMsg (stack : List String) : String :=
  "Unclosed tags: " ++ String.intercalate ", " stack

/-- Embedding of HTMLValidator.handle_starttag: push the tag unless it
is one of the void elements. -/
def handle_starttag (st : VState) (tag : String) : VState :=
  if tag ∈ void_elements then st
  else { st with stack := st.stack ++ [tag] }

/-- Embedding of HTMLValidator.handle_endtag: empty stack records an
unexpected-closing diagnostic; a differing stack top records a
mismatched-tags diagnostic without popping; a matching top is popped. -/
def handle_endtag (st : VState) (tag : String) : VState :=
  match st.stack.getLast? with
  | none => { st with errors := st.errors ++ [unexpectedClosingMsg tag] }
  | some top =>
    if top ≠ tag then { st with errors := st.errors ++ [mismatchedMsg top tag] }
    else { st with stack := st.stack.dropLast }

/-- Tag events delivered by the HTML tokenizer to the validator.  Only
start and end tags matter: HTMLValidator overrides no data handler. -/
inductive HtmlEvent where
  | startTag (tag : String)
  | endTag (tag : String)
deriving DecidableEq, Repr

/-- Dispatch of one tokenizer event to the matching handler. -/
def feedEvent (st : VState) : HtmlEvent → VState
  | .startTag t => handle_starttag st t
  | .endTag t => handle_endtag st t

/-- Feeding a whole event sequence to a fresh validator. -/
def feedEvents (events : List HtmlEvent) : VState :=
  events.foldl feedEvent initValidator

/-- End-of-input step of validate_html_file: a non-empty stack appends
one unclosed-tags diagnostic joining the remaining stack entries. -/
def finalErrors (st : VState) : List String :=
  if st.stack.isEmpty then st.errors
  else st.errors ++ [unclosedMsg st.stack]

/-- Tag-name characters accepted by the stdlib tokenizer after the
initial letter. -/
def isTagNameChar (c : Char) : Bool :=
  c.isAlpha || c.isDigit || c = '-' || c = '.' || c = ':' || c = '_'

/-- Lowercasing applied by the stdlib tokenizer to tag names. -/
def lowerName (acc : List Char) : String :=
  String.mk (acc.map Char.toLower)

/-- Scanner modes of the tokenizer: plain text, just after an opening
angle bracket, inside a start-tag name, skipping a start tag's
attributes, inside an end-tag name, skipping to the end of an end tag. -/
inductive TokMode where
  | text
  | tagOpen
  | startName (acc : List Char)
  | startRest (acc : List Char)
  | endName (acc : List Char)
  | endRest (acc : List Char)

/-- Modelled from the stdlib: one character step of the html.parser
tokenizer (the tokenizer is Python library code, not part of this
repository; only its event stream reaches the repository's handlers).
Events are accumulated in reverse. -/
def tokStep (st : TokMode × List HtmlEvent) (c : Char) : TokMode × List HtmlEvent :=
  match st.1 with
  | .text => if c = '<' then (.tagOpen, st.2) else (.text, st.2)
  | .tagOpen =>
    if c = '/' then (.endName [], st.2)
    else if c.isAlpha then (.startName [c], st.2)
    else (.text, st.2)
  | .startName acc =>
    if c = '>' then (.text, .startTag (lowerName acc) :: st.2)
    else if isTagNameChar c then (.startName (acc ++ [c]), st.2)
    else (.startRest acc, st.2)
  | .startRest acc =>
    if c = '>' then (.text, .startTag (lowerName acc) :: st.2)
    else (.startRest acc, st.2)
  | .endName acc =>
    if c = '>' then (.text, .endTag (lowerName acc) :: st.2)
    else if isTagNameChar c then (.endName (acc ++ [c]), st.2)
    else (.endRest acc, st.2)
  | .endRest acc =>
    if c = '>' then (.text, .endTag (lowerName acc) :: st.2)
    else (.endRest acc, st.2)

/-- Tokenizing a whole input text; an unterminated trailing tag yields
no event, as in the stdlib tokenizer when the feed ends. -/
def tokenizeHtml (s : String) : List HtmlEvent :=
  (s.data.foldl tokStep (TokMode.text, [])).2.reverse

/-- Embedding of validate_html_file on a file's content: feed all
events, then append the unclosed-tags diagnostic if the stack is not
empty; the resulting diagnostics list is what the function prints. -/
def validate_html_content (content : String) : List String :=
  finalErrors (feedEvents (tokenizeHtml content))

/-- Validity verdict of validate_html_file: no diagnostics recorded. -/
def validate_html_file (content : String) : Bool :=
  (validate_html_content content).isEmpty

/-- Per-file outcome in main of the validator CLI: a missing file counts
as invalid, an existing file is judged by validate_html_file. -/
def fileResult (fs : String → Option String) (filepath : String) : Bool :=
  match fs filepath with
  | none => false
  | some content => validate_html_file content

/-- The argument loop of main: all_valid starts true and is cleared by
any missing or invalid file; every file is processed and reported. -/
def mainLoop (fs : String → Option String) :
    List String → Bool → List Bool → Bool × List Bool
  | [], all_valid, reports => (all_valid, reports)
  | f :: rest, all_valid, reports =>
    mainLoop fs rest (all_valid && fileResult fs f) (reports ++ [fileResult fs f])

/-- Embedding of the validator CLI main: usage error (exit 1) without
arguments, otherwise exit 0 iff every file was found and valid, along
with the per-file verdicts it printed. -/
def validator_main (fs : String → Option String) (args : List String) :
    Nat × List Bool :=
  if args = [] then (1, [])
  else
    let r := mainLoop fs args true []
    (if r.1 then 0 else 1, r.2)

/-- C3: the validator is the specified stack machine: a non-void start
tag is pushed and a void one ignored; a close tag on an empty stack
records an unexpected-closing diagnostic, on a differing stack top
records a mismatched-tags diagnostic without popping, and on a matching
top pops; at end of input a non-empty stack adds an unclosed-tags
diagnostic; validity means zero diagnostics; and the three quoted
inputs behave as stated. -/
theorem validator_stack_machine :
    (∀ (st : VState) (t : String), t ∉ void_elements →
        handle_starttag st t = { st with stack := st.stack ++ [t] })
    ∧ (∀ (st : VState) (t : String), t ∈ void_elements →
        handle_starttag st t = st)
    ∧ (∀ (st : VState) (t : String), st.stack = [] →
        handle_endtag st t
          = { st with errors := st.errors ++ [unexpectedClosingMsg t] })
    ∧ (∀ (st : VState) (t top : String),
        st.stack.getLast? = some top → top ≠ t →
        handle_endtag st t
          = { st with errors := st.errors ++ [mismatchedMsg top t] })
    ∧ (∀ (st : VState) (t : String), st.stack.getLast? = some t →
        handle_endtag st t = { st with stack := st.stack.dropLast })
    ∧ (∀ st : VState, st.stack ≠ [] →
        finalErrors st = st.errors ++ [unclosedMsg st.stack])
    ∧ (∀ content, validate_html_file content = true ↔
        validate_html_content content = [])
    ∧ validate_html_file "<p>Hello</p>" = true
    ∧ validate_html_file "<p>Hello" = false
    ∧ validate_html_content "<p>Hello" = ["Unclosed tags: p"]
    ∧ validate_html_file "<img src=\x27x\x27>" = true := by
  refine ⟨?_, ?_, ?_, ?_, ?_, ?_, ?_, by decide, by decide, by decide, by decide⟩
  · intro st t ht
    simp [handle_starttag, ht]
  · intro st t ht
    simp [handle_starttag, ht]
  · intro st t ht
    simp [handle_endtag, ht]
  · intro st t top htop hne
    simp only [handle_endtag, htop]
    simp [hne]
  · intro st t htop
    simp only [handle_endtag, htop]
    simp
  · intro st hst
    simp [finalErrors, List.isEmpty_iff, hst]
  · intro content
    simp [validate_html_file, List.isEmpty_iff]

/-- Witness for C3: pushing a non-void start tag onto the empty stack. -/
theorem validator_stack_machine_witness :
    handle_starttag ⟨[], []⟩ "p" = ⟨[], ["p"]⟩ :=
  validator_stack_machine.1 ⟨[], []⟩ "p" (by decide)

/-- C10: a mismatched closing tag records its diagnostic but leaves the
stack unchanged, so the mismatched open tag is later also reported as
unclosed: the quoted input produces exactly the mismatched-tags and the
unclosed-tags diagnostics, and is invalid. -/
theorem mismatch_keeps_stack :
    (∀ (st : VState) (t top : String),
        st.stack.getLast? = some top → top ≠ t →
        (handle_endtag st t).stack = st.stack ∧
        (handle_endtag st t).errors = st.errors ++ [mismatchedMsg top t])
    ∧ validate_html_content "<p>Hello</div>"
        = ["Mismatched tags: expected </p>, got </div>", "Unclosed tags: p"]
    ∧ validate_html_file "<p>Hello</div>" = false := by
  refine ⟨?_, by decide, by decide⟩
  intro st t top htop hne
  simp only [handle_endtag, htop]
  simp [hne]

/-- Witness for C10: closing div over an open p keeps p on the stack
while recording the mismatch. -/
theorem mismatch_keeps_stack_witness :
    (handle_endtag ⟨[], ["p"]⟩ "div").stack = ["p"] ∧
    (handle_endtag ⟨[], ["p"]⟩ "div").errors
      = [] ++ [mismatchedMsg "p" "div"] :=
  mismatch_keeps_stack.1 ⟨[], ["p"]⟩ "div" "p" rfl (by decide)

lemma fileResult_true_iff (fs : String → Option String) (f : String) :
    fileResult fs f = true ↔
      ∃ c, fs f = some c ∧ validate_html_file c = true := by
  cases h : fs f with
  | none => simp [fileResult, h]
  | some c => simp [fileResult, h]

lemma mainLoop_spec (fs : String → Option String) :
    ∀ (L : List String) (b : Bool) (acc : List Bool),
      mainLoop fs L b acc
        = (b && L.all (fileResult fs), acc ++ L.map (fileResult fs)) := by
  intro L
  induction L with
  | nil => intro b acc; simp [mainLoop]
  | cons f rest ih =>
    intro b acc
    simp [mainLoop, ih, Bool.and_assoc]

/-- C6: given at least one argument, the validator CLI exits 0 exactly
when every argument names an existing file passing validation, exits 1
otherwise, and processes every argument (one verdict per file) instead
of stopping at the first bad one. -/
theorem validator_cli_exit (fs : String → Option String) (args : List String)
    (hne : args ≠ []) :
    ((validator_main fs args).1 = 0 ↔
        ∀ f ∈ args, ∃ c, fs f = some c ∧ validate_html_file c = true)
    ∧ ((validator_main fs args).1 = 1 ↔
        ¬ ∀ f ∈ args, ∃ c, fs f = some c ∧ validate_html_file c = true)
    ∧ (validator_main fs args).2.length = args.length := by
  have hmain : validator_main fs args
      = (if args.all (fileResult fs) then 0 else 1, args.map (fileResult fs)) := by
    simp [validator_main, hne, mainLoop_spec]
  rw [hmain]
  have hall : args.all (fileResult fs) = true ↔
      ∀ f ∈ args, ∃ c, fs f = some c ∧ validate_html_file c = true := by
    rw [List.all_eq_true]
    constructor
    · intro h f hf
      exact (fileResult_true_iff fs f).mp (h f hf)
    · intro h f hf
      exact (fileResult_true_iff fs f).mpr (h f hf)
  refine ⟨?_, ?_, by simp⟩
  · constructor
    · intro h
      by_cases hb : args.all (fileResult fs) = true
      · exact hall.mp hb
      · simp [hb] at h
    · intro h
      simp [hall.mpr h]
  · constructor
    · intro h hcontra
      simp [hall.mpr hcontra] at h
    · intro h
      by_cases hb : args.all (fileResult fs) = true
      · exact absurd (hall.mp hb) h
      · simp [hb]

/-- Witness for C6: a single well-formed file gives exit code 0. -/
theorem validator_cli_exit_witness :
    (validator_main (fun _ => some "<p>Hello</p>") ["index.html"]).1 = 0 :=
  (validator_cli_exit (fun _ => some "<p>Hello</p>") ["index.html"]
      (by decide)).1.mpr
    (fun _ _ => ⟨"<p>Hello</p>", rfl, by decide⟩)

/-- Filesystem operations a generator function can perform on the
output side.  write_output in the source only opens the fixed path for
writing; creating a directory tree would be a distinct operation. -/
inductive FSOp where
  | mkdirAll (path : String)
  | writeFile (path : String) (content : String)
deriving DecidableEq, Repr

/-- Mutable disk state for the output side: the set of existing
directories and the file contents. -/
structure DiskState where
  dirs : List String
  files : String → Option String

/-- The directory component of a path (text before the last slash). -/
def dirOfPath (p : String) : String :=
  ⟨((p.data.reverse.dropWhile (· ≠ '/')).drop 1).reverse⟩

/-- Semantics of one filesystem operation: opening a file for writing
fails when its parent directory does not exist (as Python open does),
while mkdirAll creates the directory. -/
def applyOp (st : DiskState) : FSOp → Except String DiskState
  | .mkdirAll d => .ok { st with dirs := d :: st.dirs }
  | .writeFile p c =>
    if dirOfPath p ∈ st.dirs then
      .ok { st with files := fun q => if q = p then some c else st.files q }
    else
      .error ("No such file or directory: " ++ p)

/-- Running a sequence of filesystem operations, stopping at the first
failure. -/
def runOps (st : DiskState) : List FSOp → Except String DiskState
  | [] => .ok st
  | op :: rest =>
    match applyOp st op with
    | .error e => .error e
    | .ok st' => runOps st' rest

/-- Embedding of write_output: the operations it performs (a single
open-for-write of docs/index.html, whose mode truncates any prior
content) and the path it returns.  The source contains no directory
creation call. -/
def write_output (output : String) : List FSOp × String :=
  ([FSOp.writeFile "docs/index.html" output], "docs/index.html")

/-- Counterexample for C5: were write_output to ensure the parent
directory of docs/index.html exists before writing (creating it
recursively if absent), its operations would succeed from every disk
state; on a disk without a docs directory they fail instead. -/
theorem writer_no_mkdir_counterexample :
    ¬ (∀ st : DiskState, ∃ st',
        runOps st (write_output "html").1 = .ok st' ∧
        st'.files "docs/index.html" = some "html") := by
  intro h
  rcases h ⟨[], fun _ => none⟩ with ⟨st', h1, _⟩
  rw [show runOps ⟨[], fun _ => none⟩ (write_output "html").1
      = .error ("No such file or directory: " ++ "docs/index.html") from rfl] at h1
  cases h1

/-- C5 as amended: write_output performs no directory creation; given
that the docs directory already exists, it writes the full string to
the fixed path docs/index.html, replacing (truncating) any prior
content of that file and touching nothing else. -/
theorem writer_writes_fixed_path (st : DiskState) (output : String)
    (h : "docs" ∈ st.dirs) :
    (∀ op ∈ (write_output output).1, ∀ d, op ≠ FSOp.mkdirAll d)
    ∧ (write_output output).2 = "docs/index.html"
    ∧ ∃ st', runOps st (write_output output).1 = .ok st'
        ∧ st'.files "docs/index.html" = some output
        ∧ (∀ q, q ≠ "docs/index.html" → st'.files q = st.files q)
        ∧ st'.dirs = st.dirs := by
  refine ⟨?_, rfl, ?_⟩
  · intro op hop d
    simp only [write_output, List.mem_singleton] at hop
    subst hop
    intro hcontra
    cases hcontra
  · have hdir : dirOfPath "docs/index.html" = "docs" := rfl
    refine ⟨{ st with files := fun q =>
        if q = "docs/index.html" then some output else st.files q }, ?_, ?_, ?_, rfl⟩
    · simp [write_output, runOps, applyOp, hdir, h]
    · simp
    · intro q hq
      simp [hq]

/-- Witness for the amended C5: on a disk that has the docs directory,
the write lands at docs/index.html. -/
theorem writer_writes_fixed_path_witness :
    ∃ st', runOps ⟨["docs"], fun _ => none⟩ (write_output "html").1 = .ok st'
        ∧ st'.files "docs/index.html" = some "html"
        ∧ (∀ q, q ≠ "docs/index.html" →
            st'.files q = (⟨["docs"], fun _ => none⟩ : DiskState).files q)
        ∧ st'.dirs = (⟨["docs"], fun _ => none⟩ : DiskState).dirs :=
  (writer_writes_fixed_path ⟨["docs"], fun _ => none⟩ "html" (by simp)).2.2

/-- The render context assembled per run: the welcome text, the roster
and the generation timestamp. -/
structure RenderContext where
  welcome_text : String
  staff_members : List StaffMember
  generation_timestamp : String
deriving DecidableEq, Repr

/-- A wall-clock reading, the only input of the timestamp field. -/
structure DateTime where
  year : Nat
  month : Nat
  day : Nat
  hour : Nat
  minute : Nat
  second : Nat
deriving DecidableEq, Repr

/-- Two-digit zero padding of strftime numeric fields. -/
def pad2 (n : Nat) : String :=
  if n < 10 then "0" ++ toString n else toString n

/-- The strftime format string of prepare_template_context, rendered
for a given clock reading (years of this program are four digits). -/
def formatTimestamp (t : DateTime) : String :=
  toString t.year ++ "-" ++ pad2 t.month ++ "-" ++ pad2 t.day ++ " "
    ++ pad2 t.hour ++ ":" ++ pad2 t.minute ++ ":" ++ pad2 t.second

/-- Embedding of prepare_template_context, with the wall clock passed
explicitly (datetime.datetime.now() in the source). -/
def prepare_template_context (now : DateTime) (welcome_text : String)
    (staff_members : List StaffMember) : RenderContext :=
  { welcome_text := welcome_text, staff_members := staff_members,
    generation_timestamp := formatTimestamp now }

/-- Embedding of render_template: the external templating engine is an
opaque deterministic function of the template source and the context; a
missing template file fails (mako raises its own error there, folded
into the single error type since only success is at stake here). -/
def render_template (engine : String → RenderContext → String) (fs : FS)
    (templates_dir : String) (context : RenderContext) :
    Except LoadError String :=
  match fs.files (templates_dir ++ "/index.html.mako") with
  | some tsrc => .ok (engine tsrc context)
  | none => .error (.MissingResourceError (templates_dir ++ "/index.html.mako"))

/-- Embedding of the generation pipeline of main up to the rendered
string and the output path: load inputs, build the context with the
clock reading, render. -/
def generate_pipeline (engine : String → RenderContext → String) (fs : FS)
    (now : DateTime) : Except LoadError (String × String) :=
  match load_inputs fs "templates" with
  | .error e => .error e
  | .ok (welcome_text, staff_members) =>
    match render_template engine fs "templates"
        (prepare_template_context now welcome_text staff_members) with
    | .error e => .error e
    | .ok output => .ok (output, (write_output output).2)

/-- C7: the pipeline is a pure function of its input files and the
clock, so two runs over identical inputs with a frozen clock are
byte-identical; the clock enters only through the timestamp string, so
runs whose clock readings format identically are also byte-identical;
and with a live clock the contexts of two runs agree on the welcome
text and the roster, differing at most in the timestamp field. -/
theorem pipeline_deterministic (engine : String → RenderContext → String) :
    (∀ (fs1 fs2 : FS) (t1 t2 : DateTime), fs1 = fs2 → t1 = t2 →
        generate_pipeline engine fs1 t1 = generate_pipeline engine fs2 t2)
    ∧ (∀ (fs : FS) (t1 t2 : DateTime),
        formatTimestamp t1 = formatTimestamp t2 →
        generate_pipeline engine fs t1 = generate_pipeline engine fs t2)
    ∧ (∀ (w : String) (s : List StaffMember) (t1 t2 : DateTime),
        (prepare_template_context t1 w s).welcome_text
            = (prepare_template_context t2 w s).welcome_text
        ∧ (prepare_template_context t1 w s).staff_members
            = (prepare_template_context t2 w s).staff_members
        ∧ ((prepare_template_context t1 w s).generation_timestamp
              = (prepare_template_context t2 w s).generation_timestamp →
            prepare_template_context t1 w s = prepare_template_context t2 w s)) := by
  refine ⟨?_, ?_, ?_⟩
  · rintro fs1 fs2 t1 t2 rfl rfl
    rfl
  · intro fs t1 t2 h
    simp only [generate_pipeline]
    cases hli : load_inputs fs "templates" with
    | error e => rfl
    | ok ws =>
      obtain ⟨w, s⟩ := ws
      have hctx : prepare_template_context t1 w s
          = prepare_template_context t2 w s := by
        simp [prepare_template_context, h]
      simp [hctx]
  · intro w s t1 t2
    refine ⟨rfl, rfl, ?_⟩
    intro h
    simp only [prepare_template_context] at h ⊢
    simp [h]

/-- Witness for C7: two runs with the same frozen clock and the same
filesystem agree byte for byte. -/
theorem pipeline_deterministic_witness :
    generate_pipeline (fun _ _ => "page") fsAll ⟨2026, 10, 12, 0, 0, 0⟩
      = generate_pipeline (fun _ _ => "page") fsAll ⟨2026, 10, 12, 0, 0, 0⟩ :=
  (pipeline_deterministic (fun _ _ => "page")).1 fsAll fsAll
    ⟨2026, 10, 12, 0, 0, 0⟩ ⟨2026, 10, 12, 0, 0, 0⟩ rfl rfl

end MirpaaSite
